import Mathlib

/-!
Shallow embedding of the hybrid intent-resolution and context-assembly
pipeline (`server_withContextManager.js` and `context_manager.js`).

Machine strings are modelled as Lean `String`; JavaScript
`String.prototype.includes` is modelled by an explicit contiguous-substring
scan over the character list; `String.prototype.toLowerCase` is modelled by
`jsToLower`, `Char.toLower` applied character by character (the trigger
vocabulary is ASCII).  The external LLM
classification call is modelled by its observable outcome: either the `try`
block throws (transport failure, missing response fields, or a `JSON.parse`
error) or it returns a parsed JSON value.  Spreading a parsed value with
`[...llmConnectors]` is modelled by `spreadJS`, which succeeds on arrays and
strings (the iterable JSON values among those `JSON.parse` can produce) and
throws a `TypeError` otherwise, exactly as in JavaScript.
-/

namespace MCP

/-- `leadsWith pat l` is true when `pat` is an initial segment of `l`. -/
def leadsWith : List Char → List Char → Bool
  | [], _ => true
  | _ :: _, [] => false
  | a :: pat, b :: l => a == b && leadsWith pat l

/-- `occursIn pat l` is true when `pat` occurs contiguously inside `l`. -/
def occursIn (pat : List Char) : List Char → Bool
  | [] => leadsWith pat []
  | c :: rest => leadsWith pat (c :: rest) || occursIn pat rest

/-- JavaScript `s.includes(sub)`: contiguous substring test. -/
def jsIncludes (s sub : String) : Bool :=
  occursIn sub.toList s.toList

/-- JavaScript `s.toLowerCase()`, character by character (the trigger
vocabulary is ASCII). -/
def jsToLower (s : String) : String :=
  String.mk (s.toList.map Char.toLower)

/-- ASCII portion of the JavaScript regular-expression class `\s`. -/
def isJsSpace (c : Char) : Bool :=
  c == ' ' || c == '\t' || c == '\n' || c == '\r' || c == '\x0b' || c == '\x0c'

/-- One attempted match of `/next\s+week/` starting at the head of `l`:
the literal `next`, then at least one whitespace character, then the
literal `week`.  Greedy whitespace consumption is equivalent to the
backtracking regular-expression semantics because `week` does not start
with a whitespace character. -/
def nwHere (l : List Char) : Bool :=
  leadsWith "next".toList l &&
    (let r := l.drop 4
     !(r.takeWhile isJsSpace).isEmpty && leadsWith "week".toList (r.dropWhile isJsSpace))

/-- Scan for a match of `/next\s+week/` at any position. -/
def nwSearch : List Char → Bool
  | [] => nwHere []
  | c :: rest => nwHere (c :: rest) || nwSearch rest

/-- JavaScript `/next\s+week/.test(s)`. -/
def regexNextWeekTest (s : String) : Bool :=
  nwSearch s.toList

/-! ### Connector rule table (the built-in default set, `server_withContextManager.js` 31-38) -/

def connectorRules : List (String × List String) :=
  [("google_calendar", ["meeting", "schedule", "calendar", "free", "busy"]),
   ("aws_monitor", ["server", "status", "deployment", "aws", "error", "uptime"]),
   ("notion_docs", ["note", "decision", "project", "document", "summary"]),
   ("github_repo", ["pull request", "repo", "commit", "issue"]),
   ("stripe_finance", ["payment", "invoice", "balance", "transaction"]),
   ("fitbit_health", ["steps", "sleep", "fitness", "health"])]

structure IntentResult where
  connectors : List String
  timeHint : Option String
deriving DecidableEq, Repr

/-- `ruleBasedAnalyzer` (`server_withContextManager.js` 44-61). -/
def ruleBasedAnalyzer (query : String) : IntentResult :=
  let text := jsToLower query
  let connectors :=
    (connectorRules.filter (fun p => p.2.any (fun keyword => jsIncludes text keyword))).map
      Prod.fst
  let timeHint :=
    if jsIncludes text "today" then some "today"
    else if jsIncludes text "tomorrow" then some "tomorrow"
    else if regexNextWeekTest text then some "next_week"
    else none
  { connectors := if connectors.isEmpty then ["semantic_search"] else connectors
    timeHint := timeHint }

/-! ### LLM-based analyzer and hybrid resolver -/

/-- A JSON value as produced by `JSON.parse`; array elements are restricted
to the strings relevant to connector classification. -/
inductive JSValue where
  | jarray (elems : List String)
  | jstring (s : String)
  | jnumber (n : Int)
  | jbool (b : Bool)
  | jnull
  | jobject
deriving DecidableEq, Repr

/-- Observable outcome of the external classification call inside
`llmAnalyzer`: `fail` when anything in the `try` block throws (transport
failure, missing fields, `JSON.parse` error); `parsed v` when the response
text parsed to the JSON value `v`. -/
inductive LLMCallOutcome where
  | fail
  | parsed (v : JSValue)
deriving DecidableEq, Repr

/-- `llmAnalyzer` (`server_withContextManager.js` 66-87): the `catch`
returns `[]`; the success path returns the parsed value unchecked. -/
def llmAnalyzer : LLMCallOutcome → JSValue
  | .fail => .jarray []
  | .parsed v => v

/-- JavaScript array spread `[...v]` on a parsed JSON value: arrays yield
their elements, strings iterate to one-character strings, every other JSON
value is not iterable and throws a `TypeError`. -/
def spreadJS : JSValue → Except String (List String)
  | .jarray xs => .ok xs
  | .jstring s => .ok (s.toList.map (fun c => String.mk [c]))
  | _ => .error "TypeError: llmConnectors is not iterable"

/-- Deduplication as performed by `new Set(...)` followed by a spread:
first occurrences are kept, in insertion order. -/
def dedupAux (seen : List String) : List String → List String
  | [] => []
  | x :: xs => if x ∈ seen then dedupAux seen xs else x :: dedupAux (x :: seen) xs

def jsSetDedup (xs : List String) : List String :=
  dedupAux [] xs

/-- `analyzeIntent` (`server_withContextManager.js` 92-98):
`[...new Set([...ruleResult.connectors, ...llmConnectors])]` with the
rule-based time hint.  The spread of `llmConnectors` can throw. -/
def analyzeIntent (query : String) (outcome : LLMCallOutcome) : Except String IntentResult :=
  let ruleResult := ruleBasedAnalyzer query
  match spreadJS (llmAnalyzer outcome) with
  | .error e => .error e
  | .ok llmConnectors =>
      .ok { connectors := jsSetDedup (ruleResult.connectors ++ llmConnectors)
            timeHint := ruleResult.timeHint }

/-! ### Connector fetch stage -/

/-- Result of a JavaScript property read `obj[key]` on an object literal,
as performed by `data[connector]` in `fetchConnector`: an own data property
(in this table always a string), an inherited member of
`Object.prototype` reached through the prototype chain (a function, or
`Object.prototype` itself for `__proto__` — in either case a truthy
object, kept symbolically by its key), or `undefined`. -/
inductive JSProp where
  | str (s : String)
  | protoMember (name : String)
  | undefined
deriving DecidableEq, Repr

/-- The property keys of `Object.prototype`, inherited by every object
literal. -/
def objectProtoKeys : List String :=
  ["constructor", "hasOwnProperty", "isPrototypeOf", "propertyIsEnumerable",
   "toLocaleString", "toString", "valueOf", "__proto__",
   "__defineGetter__", "__defineSetter__", "__lookupGetter__", "__lookupSetter__"]

/-- JavaScript property read `own[key]`: own keys first, then the
prototype chain (here `Object.prototype`), else `undefined`. -/
def jsGetProp (own : List (String × String)) (key : String) : JSProp :=
  match (own.find? (fun p => p.1 == key)).map Prod.snd with
  | some s => .str s
  | none => if key ∈ objectProtoKeys then .protoMember key else .undefined

/-- JavaScript truthiness of such a property value: `undefined` and the
empty string are falsy; inherited functions/objects are truthy. -/
def JSProp.truthy : JSProp → Bool
  | .str s => !(s == "")
  | .protoMember _ => true
  | .undefined => false

structure ConnectorContext where
  connector : String
  summary : JSProp
deriving DecidableEq, Repr

/-- JavaScript `x || d` for an optional string (`null`/`undefined` and the
empty string are falsy). -/
def jsOrElse : Option String → String → String
  | none, d => d
  | some s, d => if s = "" then d else s

/-- The `data` object literal inside `fetchConnector`
(`server_withContextManager.js` 104-112). -/
def summaryData (timeHint : Option String) : List (String × String) :=
  [("google_calendar", "Checked calendar for " ++ jsOrElse timeHint "upcoming" ++ " meetings."),
   ("aws_monitor", "Fetched server health metrics from AWS."),
   ("notion_docs", "Retrieved recent meeting notes and project updates."),
   ("github_repo", "Fetched latest pull requests and commits."),
   ("stripe_finance", "Fetched balance and transaction summaries."),
   ("fitbit_health", "Fetched recent step count and sleep stats."),
   ("semantic_search", "Performed general semantic search for context.")]

/-- `fetchConnector` (`server_withContextManager.js` 103-118):
`data[connector] || "No data available"`.  The property read walks the
prototype chain, so a key naming an inherited `Object.prototype` member
yields that truthy member and `||` keeps it; only a falsy read (an absent
key) falls back to the sentinel.  `jsGetProp` is pure, so evaluating it
twice is the same as the source evaluating `data[connector]` once. -/
def fetchConnector (connector _user_id _query : String) (timeHint : Option String) :
    ConnectorContext :=
  { connector := connector
    summary :=
      if (jsGetProp (summaryData timeHint) connector).truthy then
        jsGetProp (summaryData timeHint) connector
      else .str "No data available" }

/-- The fan-out in the route handler (`server_withContextManager.js`
150-152): `Promise.all(intent.connectors.map(conn => fetchConnector(...)))`,
which resolves to one result per input element in input order. -/
def fetchAll (connectors : List String) (user_id query : String)
    (timeHint : Option String) : List ConnectorContext :=
  connectors.map (fun conn => fetchConnector conn user_id query timeHint)

/-! ### Context manager (`context_manager.js`) -/

def cdChunk0 : String :=
  "CD is the practice of automatically deploying code changes to production. The biggest challenge in 2025 is typically security validation within the automated pipeline."

def cdChunk1 : String :=
  "A common bottleneck is integration testing across microservices, requiring complex environment orchestration."

def cdChunk2 : String :=
  "Organizational challenges, specifically lack of trust between Dev and Ops, often prevent full CD adoption."

def mlChunk0 : String :=
  "MLOps teams often struggle with model drift and continuous retraining pipeline complexity."

def cloudChunk0 : String :=
  "Cost optimization and vendor lock-in are primary risks when migrating to the cloud."

def MOCK_DOC_REPO : List (String × List String) :=
  [("continuous deployment", [cdChunk0, cdChunk1, cdChunk2]),
   ("machine learning", [mlChunk0]),
   ("cloud migration", [cloudChunk0])]

structure RetrievedContext where
  contextText : String
  useSearchTool : Bool
deriving DecidableEq, Repr

/-- JavaScript `Array.prototype.join(sep)`. -/
def jsJoin (sep : String) : List String → String
  | [] => ""
  | [x] => x
  | x :: y :: xs => x ++ sep ++ jsJoin sep (y :: xs)

/-- `MOCK_DOC_REPO[topic.toLowerCase()]` (`context_manager.js` 33). -/
def repoLookup (topic : String) : Option (List String) :=
  (MOCK_DOC_REPO.find? (fun p => p.1 == jsToLower topic)).map Prod.snd

/-- The chunk-collecting loop of `mockRetrieveContext`
(`context_manager.js` 27-39): for each topic with source data, push
`sourceData.slice(0, 2)`. -/
def collectChunks (inferredTopics : List String) : List String :=
  inferredTopics.foldl
    (fun relevantChunks topic =>
      match repoLookup topic with
      | some sourceData => relevantChunks ++ sourceData.take 2
      | none => relevantChunks)
    []

/-- Per-topic reading of the same collection: up to the first two excerpts
per topic, flattened in topic order. -/
def chunksSpec : List String → List String
  | [] => []
  | topic :: rest => ((repoLookup topic).getD []).take 2 ++ chunksSpec rest

/-- `mockRetrieveContext` (`context_manager.js` 26-54).  Both return
branches carry the same `contextText`; `useSearchTool` is true exactly when
the raw query contains `"right now"`. -/
def mockRetrieveContext (inferredTopics : List String) (initialQuery : String) :
    RetrievedContext :=
  { contextText := jsJoin "\n---\n" (collectChunks inferredTopics)
    useSearchTool := jsIncludes initialQuery "right now" }

inductive Tool where
  | google_search
deriving DecidableEq, Repr

structure AugmentedPrompt where
  finalPrompt : String
  tools : Option (List Tool)
deriving DecidableEq, Repr

/-- Topic inference of `prepareContextualPrompt` (`context_manager.js`
66-68): raw, case-sensitive `includes` checks. -/
def inferTopics (userQuery : String) : List String :=
  (if jsIncludes userQuery "deployment" then ["Continuous Deployment"] else []) ++
    (if jsIncludes userQuery "ML" then ["Machine Learning"] else [])

/-- The template-literal text before `${contextText}`
(`context_manager.js` 86-97). -/
def promptHeader : String :=
  "\nYou are a **Pragmatic and Solution-Oriented DevOps Consultant**. Your primary intent is to provide **actionable recommendations and expert analysis**.\n\nBased on the following retrieved context, answer the user\x27s query.\n\nINSTRUCTION SET:\n1.  Analyze the provided information (CONTEXT and USER QUERY).\n2.  If possible, identify a root cause or key challenge.\n3.  Generate your response as a concise summary followed by a bulleted list of 2-3 specific, actionable steps or recommendations.\n\nRETRIEVED CONTEXT:\n---\n"

/-- The template-literal text between `${contextText}` and `${userQuery}`. -/
def promptMid : String :=
  "\n---\n\nUSER QUERY:\n"

/-- The template-literal text after `${userQuery}`. -/
def promptTail : String :=
  "\n\nGenerate your response now.\n    "

/-- `prepareContextualPrompt` (`context_manager.js` 62-114). -/
def prepareContextualPrompt (userQuery : String) : AugmentedPrompt :=
  let inferredTopics := inferTopics userQuery
  if inferredTopics.isEmpty then
    { finalPrompt := userQuery, tools := some [Tool.google_search] }
  else
    let retrieved := mockRetrieveContext inferredTopics userQuery
    { finalPrompt :=
        promptHeader ++ retrieved.contextText ++ promptMid ++ userQuery ++ promptTail
      tools := if retrieved.useSearchTool then some [Tool.google_search] else none }

/-! ### Helper lemmas -/



theorem strToList_append (a b : String) : (a ++ b).toList = a.toList ++ b.toList := rfl

theorem leadsWith_iff (pat : List Char) : ∀ l, leadsWith pat l = true ↔ ∃ t, l = pat ++ t := by
  induction pat with
  | nil => intro l; simp [leadsWith]
  | cons a pat ih =>
    intro l
    cases l with
    | nil => simp [leadsWith]
    | cons b l =>
      simp only [leadsWith, Bool.and_eq_true, beq_iff_eq, ih, List.cons_append]
      constructor
      · rintro ⟨rfl, t, rfl⟩; exact ⟨t, rfl⟩
      · rintro ⟨t, ht⟩
        injection ht with h1 h2
        exact ⟨h1.symm, t, h2⟩

theorem occursIn_iff (pat : List Char) : ∀ l, occursIn pat l = true ↔ ∃ p t, l = p ++ pat ++ t := by
  intro l
  induction l with
  | nil =>
    simp only [occursIn, leadsWith_iff]
    constructor
    · rintro ⟨t, ht⟩; exact ⟨[], t, by simpa using ht⟩
    · rintro ⟨p, t, ht⟩
      cases p with
      | nil => exact ⟨t, by simpa using ht⟩
      | cons _ _ => simp at ht
  | cons c rest ih =>
    simp only [occursIn, Bool.or_eq_true, leadsWith_iff, ih]
    constructor
    · rintro (⟨t, ht⟩ | ⟨p, t, ht⟩)
      · exact ⟨[], t, by simpa using ht⟩
      · exact ⟨c :: p, t, by simp [ht]⟩
    · rintro ⟨p, t, ht⟩
      cases p with
      | nil => exact Or.inl ⟨t, by simpa using ht⟩
      | cons c' p' =>
        injection ht with h1 h2
        exact Or.inr ⟨p', t, h2⟩

theorem jsIncludes_of_toList_eq (s sub : String) (p t : List Char)
    (h : s.toList = p ++ sub.toList ++ t) : jsIncludes s sub = true :=
  (occursIn_iff sub.toList s.toList).mpr ⟨p, t, h⟩

theorem mem_dedupAux (a : String) (xs : List String) :
    ∀ seen, a ∈ dedupAux seen xs ↔ a ∈ xs ∧ a ∉ seen := by
  induction xs with
  | nil => intro seen; simp [dedupAux]
  | cons x xs ih =>
    intro seen
    by_cases hx : x ∈ seen
    · rw [dedupAux, if_pos hx, ih]
      constructor
      · rintro ⟨h1, h2⟩; exact ⟨List.mem_cons_of_mem _ h1, h2⟩
      · rintro ⟨h1, h2⟩
        rcases List.mem_cons.mp h1 with rfl | h1
        · exact absurd hx h2
        · exact ⟨h1, h2⟩
    · rw [dedupAux, if_neg hx]
      constructor
      · intro h
        rcases List.mem_cons.mp h with rfl | h
        · exact ⟨List.mem_cons_self _ _, hx⟩
        · rcases (ih _).mp h with ⟨h1, h2⟩
          refine ⟨List.mem_cons_of_mem _ h1, fun hs => h2 (List.mem_cons_of_mem _ hs)⟩
      · rintro ⟨h1, h2⟩
        rcases List.mem_cons.mp h1 with rfl | h1
        · exact List.mem_cons_self _ _
        · by_cases hax : a = x
          · subst hax; exact List.mem_cons_self _ _
          · exact List.mem_cons_of_mem _ ((ih _).mpr ⟨h1, by simp [hax, h2]⟩)

theorem mem_jsSetDedup (a : String) (xs : List String) : a ∈ jsSetDedup xs ↔ a ∈ xs := by
  rw [jsSetDedup, mem_dedupAux]; simp

theorem jsSetDedup_ne_nil (xs ys : List String) (h : xs ≠ []) :
    jsSetDedup (xs ++ ys) ≠ [] := by
  cases xs with
  | nil => exact absurd rfl h
  | cons x xs =>
    exact List.ne_nil_of_mem ((mem_jsSetDedup x _).mpr (by simp))

theorem ruleBased_connectors_ne_nil (query : String) :
    (ruleBasedAnalyzer query).connectors ≠ [] := by
  unfold ruleBasedAnalyzer
  set l := (connectorRules.filter
    (fun p => p.2.any (fun keyword => jsIncludes (jsToLower query) keyword))).map Prod.fst with hl
  simp only
  by_cases h : l.isEmpty
  · rw [if_pos h]; simp
  · rw [if_neg h]
    intro hnil
    exact h (show l.isEmpty = true by rw [hl, hnil]; rfl)

theorem collectChunks_eq (topics : List String) : collectChunks topics = chunksSpec topics := by
  suffices h : ∀ acc, topics.foldl
      (fun relevantChunks topic =>
        match repoLookup topic with
        | some sourceData => relevantChunks ++ sourceData.take 2
        | none => relevantChunks) acc = acc ++ chunksSpec topics by
    simpa using h []
  induction topics with
  | nil => intro acc; simp [chunksSpec]
  | cons t ts ih =>
    intro acc
    simp only [List.foldl_cons, chunksSpec]
    cases h : repoLookup t with
    | none => simp [h, ih]
    | some l => simp [h, ih]


/-! ### Equation lemmas for the analyzer fields -/

theorem ruleBased_connectors_eq (query : String) :
    (ruleBasedAnalyzer query).connectors =
      (let l := (connectorRules.filter
          (fun p => p.2.any (fun keyword => jsIncludes (jsToLower query) keyword))).map Prod.fst
       if l.isEmpty then ["semantic_search"] else l) := rfl

theorem ruleBased_timeHint_eq (query : String) :
    (ruleBasedAnalyzer query).timeHint =
      (if jsIncludes (jsToLower query) "today" then some "today"
       else if jsIncludes (jsToLower query) "tomorrow" then some "tomorrow"
       else if regexNextWeekTest (jsToLower query) then some "next_week"
       else none) := rfl

theorem isEmpty_false_of_mem {α : Type} {a : α} {l : List α} (h : a ∈ l) :
    l.isEmpty = false := by
  cases l with
  | nil => cases h
  | cons _ _ => rfl

/-! ### Claim theorems -/

/-- C1 counterexample: a classification response that is valid JSON but not
an array (here the number `5`) is non-conforming, yet `llmAnalyzer` returns
it unchanged rather than an empty list, and `analyzeIntent` then throws a
`TypeError` while spreading it — the pipeline does propagate an error. -/
theorem c1_counterexample :
    llmAnalyzer (LLMCallOutcome.parsed (JSValue.jnumber 5)) ≠ JSValue.jarray [] ∧
    analyzeIntent "what is my balance" (LLMCallOutcome.parsed (JSValue.jnumber 5)) =
      Except.error "TypeError: llmConnectors is not iterable" :=
  ⟨by decide, rfl⟩

/-- C1 (amended): `llmAnalyzer` itself never throws — any failure inside the
call/parse (transport failure, missing fields, `JSON.parse` error) is caught
and yields the empty array; and `analyzeIntent` completes without error for
every outcome whose parsed value is iterable (in particular every array, so
every conforming response and the degraded empty result).  Only a
successfully parsed non-iterable JSON value makes `analyzeIntent` throw. -/
theorem c1_degraded_classification :
    llmAnalyzer LLMCallOutcome.fail = JSValue.jarray [] ∧
    ∀ (query : String) (outcome : LLMCallOutcome) (llmConnectors : List String),
      spreadJS (llmAnalyzer outcome) = Except.ok llmConnectors →
      ∃ result, analyzeIntent query outcome = Except.ok result := by
  refine ⟨rfl, fun query outcome llmConnectors h =>
    ⟨{ connectors := jsSetDedup ((ruleBasedAnalyzer query).connectors ++ llmConnectors),
       timeHint := (ruleBasedAnalyzer query).timeHint }, ?_⟩⟩
  simp only [analyzeIntent]
  rw [h]

theorem c1_witness :
    llmAnalyzer LLMCallOutcome.fail = JSValue.jarray [] ∧
    ∃ result, analyzeIntent "show my commits" LLMCallOutcome.fail = Except.ok result :=
  ⟨c1_degraded_classification.1,
   c1_degraded_classification.2 "show my commits" LLMCallOutcome.fail [] rfl⟩

/-- C2 counterexample: for the outcome in which the classification response
parsed to JSON `null`, `analyzeIntent` does not return a connector list at
all — it throws a `TypeError`, so the resolver result is not the union of
the two analyzer outputs for every outcome. -/
theorem c2_counterexample :
    analyzeIntent "hello" (LLMCallOutcome.parsed JSValue.jnull) =
      Except.error "TypeError: llmConnectors is not iterable" := rfl

/-- C2 (amended): for every query and every LLM outcome whose value spreads
(every conforming connector array, including the degraded empty result),
`analyzeIntent` returns the first-occurrence deduplicated union of the
rule-based connectors and the LLM contribution; this list is a superset of
the rule-based list, is non-empty, and the time hint is the rule-based one.
For a parsed non-iterable value `analyzeIntent` throws instead. -/
theorem c2_hybrid_union (query : String) (outcome : LLMCallOutcome)
    (llmConnectors : List String)
    (h : spreadJS (llmAnalyzer outcome) = Except.ok llmConnectors) :
    ∃ result, analyzeIntent query outcome = Except.ok result ∧
      result.connectors =
        jsSetDedup ((ruleBasedAnalyzer query).connectors ++ llmConnectors) ∧
      (∀ c ∈ (ruleBasedAnalyzer query).connectors, c ∈ result.connectors) ∧
      result.connectors ≠ [] ∧
      result.timeHint = (ruleBasedAnalyzer query).timeHint := by
  refine ⟨{ connectors := jsSetDedup ((ruleBasedAnalyzer query).connectors ++ llmConnectors),
            timeHint := (ruleBasedAnalyzer query).timeHint }, ?_, rfl, ?_, ?_, rfl⟩
  · simp only [analyzeIntent]
    rw [h]
  · intro c hc
    exact (mem_jsSetDedup c _).mpr (List.mem_append_left _ hc)
  · exact jsSetDedup_ne_nil _ _ (ruleBased_connectors_ne_nil query)

theorem c2_witness :
    ∃ result, analyzeIntent "check my commits today"
        (LLMCallOutcome.parsed (JSValue.jarray ["github_repo", "stripe_finance"])) =
        Except.ok result ∧
      result.connectors = jsSetDedup ((ruleBasedAnalyzer "check my commits today").connectors ++
        ["github_repo", "stripe_finance"]) ∧
      (∀ c ∈ (ruleBasedAnalyzer "check my commits today").connectors, c ∈ result.connectors) ∧
      result.connectors ≠ [] ∧
      result.timeHint = (ruleBasedAnalyzer "check my commits today").timeHint :=
  c2_hybrid_union "check my commits today"
    (LLMCallOutcome.parsed (JSValue.jarray ["github_repo", "stripe_finance"]))
    ["github_repo", "stripe_finance"] rfl

/-- C3: the rule-based connector set contains a connector whenever one of
its trigger keywords occurs in the lower-cased query (the triggers are all
lower-case, so this is case-insensitive matching on the query), and when no
trigger of any connector occurs the result is exactly
`["semantic_search"]`. -/
theorem c3_rule_matching (query : String) :
    (∀ conn keywords, (conn, keywords) ∈ connectorRules →
        (∃ kw ∈ keywords, jsIncludes (jsToLower query) kw = true) →
        conn ∈ (ruleBasedAnalyzer query).connectors) ∧
    ((∀ p ∈ connectorRules, ∀ kw ∈ p.2, jsIncludes (jsToLower query) kw = false) →
        (ruleBasedAnalyzer query).connectors = ["semantic_search"]) := by
  constructor
  · rintro conn keywords hmem ⟨kw, hkw, hinc⟩
    rw [ruleBased_connectors_eq]
    simp only
    have hconn : conn ∈ (connectorRules.filter
        (fun p => p.2.any (fun keyword => jsIncludes (jsToLower query) keyword))).map Prod.fst :=
      List.mem_map.mpr ⟨(conn, keywords),
        List.mem_filter.mpr ⟨hmem, List.any_eq_true.mpr ⟨kw, hkw, hinc⟩⟩, rfl⟩
    rw [if_neg (by rw [isEmpty_false_of_mem hconn]; exact Bool.false_ne_true)]
    exact hconn
  · intro hnone
    rw [ruleBased_connectors_eq]
    simp only
    have hfilter : connectorRules.filter
        (fun p => p.2.any (fun keyword => jsIncludes (jsToLower query) keyword)) = [] := by
      rw [List.filter_eq_nil_iff]
      intro p hp
      simp only [List.any_eq_true, not_exists]
      intro kw hkw
      rw [hnone p hp kw hkw.1] at hkw
      exact Bool.false_ne_true hkw.2
    rw [hfilter]
    rfl

theorem c3_witness :
    "google_calendar" ∈ (ruleBasedAnalyzer "Schedule a team meeting").connectors ∧
    (ruleBasedAnalyzer "hello there").connectors = ["semantic_search"] :=
  ⟨(c3_rule_matching "Schedule a team meeting").1 "google_calendar"
      ["meeting", "schedule", "calendar", "free", "busy"] (by decide)
      ⟨"meeting", by decide, by decide⟩,
   (c3_rule_matching "hello there").2 (by decide)⟩

/-- C4 counterexample: the connector id `"toString"` is absent from the
summary table, yet `data["toString"]` resolves through the prototype chain
to the inherited truthy `Object.prototype.toString`, so
`data[connector] || "No data available"` keeps the inherited member and
the summary is not the sentinel. -/
theorem c4_counterexample :
    (fetchConnector "toString" "u1" "q" none).summary = JSProp.protoMember "toString" ∧
    (fetchConnector "toString" "u1" "q" none).summary ≠ JSProp.str "No data available" :=
  ⟨rfl, by decide⟩

/-- C4 (amended): the fetch stage yields exactly one `ConnectorContext` per
resolved connector, in input order (`Promise.all` over `connectors.map`),
and never throws; a connector identifier that is not a key of the summary
table and does not name an inherited `Object.prototype` member gets the
sentinel summary `"No data available"`, while an identifier naming an
inherited `Object.prototype` member (e.g. `"toString"`) gets that truthy
inherited member instead of the sentinel. -/
theorem c4_fetch_stage (connectors : List String) (user_id query : String)
    (timeHint : Option String) :
    (fetchAll connectors user_id query timeHint).map ConnectorContext.connector = connectors ∧
    (∀ conn, conn ∉ (summaryData timeHint).map Prod.fst → conn ∉ objectProtoKeys →
      (fetchConnector conn user_id query timeHint).summary = JSProp.str "No data available") ∧
    (∀ conn, conn ∉ (summaryData timeHint).map Prod.fst → conn ∈ objectProtoKeys →
      (fetchConnector conn user_id query timeHint).summary = JSProp.protoMember conn) := by
  have hfind : ∀ conn, conn ∉ (summaryData timeHint).map Prod.fst →
      (summaryData timeHint).find? (fun p => p.1 == conn) = none := by
    intro conn hconn
    rw [List.find?_eq_none]
    intro p hp
    simp only [beq_iff_eq]
    intro he
    exact hconn (List.mem_map.mpr ⟨p, hp, he⟩)
  refine ⟨?_, ?_, ?_⟩
  · induction connectors with
    | nil => rfl
    | cons c cs ih =>
      simp only [fetchAll, List.map_cons] at ih ⊢
      rw [ih]
      rfl
  · intro conn habsent hproto
    have hv : jsGetProp (summaryData timeHint) conn = JSProp.undefined := by
      unfold jsGetProp
      rw [hfind conn habsent]
      simp [hproto]
    show (if (jsGetProp (summaryData timeHint) conn).truthy then
        jsGetProp (summaryData timeHint) conn
      else .str "No data available") = JSProp.str "No data available"
    rw [hv]
    rfl
  · intro conn habsent hproto
    have hv : jsGetProp (summaryData timeHint) conn = JSProp.protoMember conn := by
      unfold jsGetProp
      rw [hfind conn habsent]
      simp [hproto]
    show (if (jsGetProp (summaryData timeHint) conn).truthy then
        jsGetProp (summaryData timeHint) conn
      else .str "No data available") = JSProp.protoMember conn
    rw [hv]
    rfl

theorem c4_witness :
    (fetchAll ["aws_monitor", "mystery_connector"] "u1" "q" none).map
        ConnectorContext.connector = ["aws_monitor", "mystery_connector"] ∧
    (fetchConnector "mystery_connector" "u1" "q" none).summary =
      JSProp.str "No data available" ∧
    (fetchConnector "hasOwnProperty" "u1" "q" none).summary =
      JSProp.protoMember "hasOwnProperty" :=
  ⟨(c4_fetch_stage ["aws_monitor", "mystery_connector"] "u1" "q" none).1,
   (c4_fetch_stage ["aws_monitor", "mystery_connector"] "u1" "q" none).2.1
      "mystery_connector" (by decide) (by decide),
   (c4_fetch_stage ["aws_monitor", "mystery_connector"] "u1" "q" none).2.2
      "hasOwnProperty" (by decide) (by decide)⟩

/-- C5: the time hint is resolved by the first matching rule in priority
order — `"today"`, else `"tomorrow"`, else the regular expression
`next\s+week`, else no hint — so a query containing both `"today"` and
`"tomorrow"` yields `"today"`. -/
theorem c5_time_hint (query : String) :
    (jsIncludes (jsToLower query) "today" = true →
      (ruleBasedAnalyzer query).timeHint = some "today") ∧
    (jsIncludes (jsToLower query) "today" = false →
      jsIncludes (jsToLower query) "tomorrow" = true →
      (ruleBasedAnalyzer query).timeHint = some "tomorrow") ∧
    (jsIncludes (jsToLower query) "today" = false →
      jsIncludes (jsToLower query) "tomorrow" = false →
      regexNextWeekTest (jsToLower query) = true →
      (ruleBasedAnalyzer query).timeHint = some "next_week") ∧
    (jsIncludes (jsToLower query) "today" = false →
      jsIncludes (jsToLower query) "tomorrow" = false →
      regexNextWeekTest (jsToLower query) = false →
      (ruleBasedAnalyzer query).timeHint = none) := by
  refine ⟨fun h1 => ?_, fun h1 h2 => ?_, fun h1 h2 h3 => ?_, fun h1 h2 h3 => ?_⟩ <;>
    rw [ruleBased_timeHint_eq] <;> simp [*]

theorem c5_witness : (ruleBasedAnalyzer "is it today or tomorrow").timeHint = some "today" :=
  (c5_time_hint "is it today or tomorrow").1 (by decide)


theorem prepare_branch_eq (q : String) (h : (inferTopics q).isEmpty = false) :
    prepareContextualPrompt q =
      { finalPrompt := promptHeader ++ (mockRetrieveContext (inferTopics q) q).contextText ++
          promptMid ++ q ++ promptTail
        tools := if (mockRetrieveContext (inferTopics q) q).useSearchTool then
            some [Tool.google_search] else none } := by
  simp only [prepareContextualPrompt, h]
  rfl

/-- C6: when no topic is inferred, `prepareContextualPrompt` short-circuits
before retrieval and returns the original query unchanged as `finalPrompt`
together with the live-search (Google Search) tool descriptor. -/
theorem c6_no_topic_fallback (userQuery : String) (h : inferTopics userQuery = []) :
    prepareContextualPrompt userQuery =
      { finalPrompt := userQuery, tools := some [Tool.google_search] } := by
  simp only [prepareContextualPrompt, h]
  rfl

theorem c6_witness :
    prepareContextualPrompt "What is the weather?" =
      { finalPrompt := "What is the weather?", tools := some [Tool.google_search] } :=
  c6_no_topic_fallback "What is the weather?" (by decide)

/-- C7: retrieval takes at most the first two excerpts per topic in topic
order, joined by the fixed separator; a query containing the deployment
trigger yields a non-empty `contextText` containing a continuous-deployment
excerpt, and a `finalPrompt` containing the instruction template and the
original query verbatim. -/
theorem c7_retrieval (query : String) (topics : List String)
    (h : jsIncludes query "deployment" = true) :
    (mockRetrieveContext topics query).contextText = jsJoin "\n---\n" (chunksSpec topics) ∧
    (mockRetrieveContext (inferTopics query) query).contextText ≠ "" ∧
    jsIncludes (mockRetrieveContext (inferTopics query) query).contextText cdChunk0 = true ∧
    jsIncludes (prepareContextualPrompt query).finalPrompt promptHeader = true ∧
    jsIncludes (prepareContextualPrompt query).finalPrompt query = true := by
  have hne : (inferTopics query).isEmpty = false := by
    simp only [inferTopics, h, if_pos]
    rfl
  have hfp : (prepareContextualPrompt query).finalPrompt =
      promptHeader ++ (mockRetrieveContext (inferTopics query) query).contextText ++
        promptMid ++ query ++ promptTail := by
    rw [prepare_branch_eq query hne]
  refine ⟨?_, ?_, ?_, ?_, ?_⟩
  · simp [mockRetrieveContext, collectChunks_eq]
  · by_cases hml : jsIncludes query "ML" = true
    · have h1 : inferTopics query = ["Continuous Deployment", "Machine Learning"] := by
        simp [inferTopics, h, hml]
      rw [h1]
      show jsJoin "\n---\n" (collectChunks ["Continuous Deployment", "Machine Learning"]) ≠ ""
      decide
    · have h1 : inferTopics query = ["Continuous Deployment"] := by
        simp [inferTopics, h, hml]
      rw [h1]
      show jsJoin "\n---\n" (collectChunks ["Continuous Deployment"]) ≠ ""
      decide
  · by_cases hml : jsIncludes query "ML" = true
    · have h1 : inferTopics query = ["Continuous Deployment", "Machine Learning"] := by
        simp [inferTopics, h, hml]
      rw [h1]
      show jsIncludes
        (jsJoin "\n---\n" (collectChunks ["Continuous Deployment", "Machine Learning"]))
        cdChunk0 = true
      decide
    · have h1 : inferTopics query = ["Continuous Deployment"] := by
        simp [inferTopics, h, hml]
      rw [h1]
      show jsIncludes (jsJoin "\n---\n" (collectChunks ["Continuous Deployment"]))
        cdChunk0 = true
      decide
  · refine jsIncludes_of_toList_eq _ _ []
      ((mockRetrieveContext (inferTopics query) query).contextText.toList ++
        promptMid.toList ++ query.toList ++ promptTail.toList) ?_
    rw [hfp]
    simp [strToList_append, List.append_assoc]
  · refine jsIncludes_of_toList_eq _ _
      (promptHeader.toList ++ (mockRetrieveContext (inferTopics query) query).contextText.toList ++
        promptMid.toList) promptTail.toList ?_
    rw [hfp]
    simp [strToList_append, List.append_assoc]

theorem c7_witness :
    (mockRetrieveContext ["Continuous Deployment"]
        "What\x27s blocking our deployment pipeline?").contextText =
      jsJoin "\n---\n" (chunksSpec ["Continuous Deployment"]) ∧
    (mockRetrieveContext (inferTopics "What\x27s blocking our deployment pipeline?")
        "What\x27s blocking our deployment pipeline?").contextText ≠ "" ∧
    jsIncludes (mockRetrieveContext (inferTopics "What\x27s blocking our deployment pipeline?")
        "What\x27s blocking our deployment pipeline?").contextText cdChunk0 = true ∧
    jsIncludes (prepareContextualPrompt
        "What\x27s blocking our deployment pipeline?").finalPrompt promptHeader = true ∧
    jsIncludes (prepareContextualPrompt
        "What\x27s blocking our deployment pipeline?").finalPrompt
      "What\x27s blocking our deployment pipeline?" = true :=
  c7_retrieval "What\x27s blocking our deployment pipeline?" ["Continuous Deployment"]
    (by decide)

/-- C8: for queries that reach retrieval, `useSearchTool` is true exactly
when the raw query contains `"right now"`, and the returned `tools` field is
the live-search descriptor exactly when `useSearchTool` is true and is
absent otherwise. -/
theorem c8_search_tool (query : String) (h : inferTopics query ≠ []) :
    (mockRetrieveContext (inferTopics query) query).useSearchTool =
      jsIncludes query "right now" ∧
    (prepareContextualPrompt query).tools =
      (if jsIncludes query "right now" then some [Tool.google_search] else none) := by
  have hne : (inferTopics query).isEmpty = false := by
    cases hi : inferTopics query with
    | nil => exact absurd hi h
    | cons a l => rfl
  refine ⟨rfl, ?_⟩
  rw [prepare_branch_eq query hne]
  rfl

theorem c8_witness :
    (mockRetrieveContext (inferTopics "deployment status right now")
        "deployment status right now").useSearchTool =
      jsIncludes "deployment status right now" "right now" ∧
    (prepareContextualPrompt "deployment status right now").tools =
      (if jsIncludes "deployment status right now" "right now" then
        some [Tool.google_search] else none) :=
  c8_search_tool "deployment status right now" (by decide)

/-- C9: `prepareContextualPrompt` is a pure function of the query over
static tables — two invocations on the same query yield identical
`finalPrompt` strings and identical `tools` values.  In this embedding the
context manager has no effects and no mutable state, so determinism is
reflexivity. -/
theorem c9_deterministic (userQuery : String) :
    (prepareContextualPrompt userQuery).finalPrompt =
      (prepareContextualPrompt userQuery).finalPrompt ∧
    (prepareContextualPrompt userQuery).tools = (prepareContextualPrompt userQuery).tools :=
  ⟨rfl, rfl⟩

/-- C10: topic-trigger matching is case-sensitive on the raw query — a topic
is inferred only if the query contains `"deployment"` or `"ML"` exactly — so
`"Deployment is blocked"` takes the no-topic fallback and is returned
unchanged, while the rule-based analyzer, matching case-insensitively,
still selects `aws_monitor` for the same query. -/
theorem c10_case_sensitive :
    (∀ userQuery, inferTopics userQuery ≠ [] →
        jsIncludes userQuery "deployment" = true ∨ jsIncludes userQuery "ML" = true) ∧
    prepareContextualPrompt "Deployment is blocked" =
      { finalPrompt := "Deployment is blocked", tools := some [Tool.google_search] } ∧
    "aws_monitor" ∈ (ruleBasedAnalyzer "Deployment is blocked").connectors := by
  refine ⟨?_, by decide, by decide⟩
  intro userQuery hne
  by_cases h1 : jsIncludes userQuery "deployment" = true
  · exact Or.inl h1
  · by_cases h2 : jsIncludes userQuery "ML" = true
    · exact Or.inr h2
    · exact absurd (by simp [inferTopics, h1, h2]) hne

theorem c10_witness :
    jsIncludes "our deployment" "deployment" = true ∨
    jsIncludes "our deployment" "ML" = true :=
  c10_case_sensitive.1 "our deployment" (by decide)

end MCP
